import Mathlib

/-!
Verification of the trademark-checker repository: a shallow embedding of
`validator.py`, `main_checker.py` and the batch/lock portion of `app.py`.
Python strings are modelled as lists of characters (`Str`); the string
methods used by the code (`strip`, `lower`, `split`) are embedded below for
the ASCII range the application works in.
-/

/-- A Python string, modelled as its list of characters. -/
abbrev Str := List Char

/-- Conversion from a Lean string literal, used for concrete test inputs. -/
def str (s : String) : Str := s.data

/-- The ASCII whitespace characters recognised by Python `str.strip()`,
`str.split()` (no argument) and the regex class `\s`. -/
def pyIsSpace (c : Char) : Bool :=
  c = ' ' || c = '\t' || c = '\n' || c = '\r' || c = '\x0b' || c = '\x0c'

/-- Python `str.strip()`: remove leading and trailing whitespace. -/
def pyStrip (s : Str) : Str :=
  ((s.dropWhile pyIsSpace).reverse.dropWhile pyIsSpace).reverse

/-- Python `str.lower()` (ASCII case mapping, which is all the app uses). -/
def pyLower (s : Str) : Str := s.map Char.toLower

/-- Worker for `pySplit`: `acc` holds the reversed current word. -/
def splitAux : Str → Str → List Str
  | [], acc => if acc = [] then [] else [acc.reverse]
  | c :: rest, acc =>
      if pyIsSpace c then
        if acc = [] then splitAux rest [] else acc.reverse :: splitAux rest []
      else splitAux rest (c :: acc)

/-- Python `str.split()` with no argument: split on runs of whitespace,
discarding empty fragments. -/
def pySplit (s : Str) : List Str := splitAux s []

/-- The token list `[word.lower().strip() for word in brand.split()]`
computed by both classifiers in `main_checker.py`. -/
def markTokens (brand : Str) : List Str :=
  (pySplit brand).map (fun word => pyStrip (pyLower word))

/-- `TrademarkChecker._check_exact_match`: lower-case and strip the query,
then keep each brand whose whitespace-separated token list contains the
query as a whole word (`if query_name in words`). -/
def checkExactMatch (queryName : Str) (brandNames : List Str) : List Str :=
  let qn := pyStrip (pyLower queryName)
  brandNames.filter (fun brand => decide (qn ∈ markTokens brand))

/-- The character-difference count `sum(1 for a, b in zip(word, query_name)
if a != b)` from `TrademarkChecker._check_similar_match`. -/
def hammingDiff (word qn : Str) : Nat :=
  (word.zip qn).countP (fun p => decide (p.1 ≠ p.2))

/-- `TrademarkChecker._check_similar_match`: keep each brand having a token
of the same length as the query with exactly one differing character
(the Python loop breaks after the first qualifying token, i.e. `any`). -/
def checkSimilarMatch (queryName : Str) (brandNames : List Str) : List Str :=
  let qn := pyStrip (pyLower queryName)
  brandNames.filter (fun brand =>
    (markTokens brand).any (fun word =>
      word.length == qn.length && hammingDiff word qn == 1))

/-- ASCII letter, as matched by the character class `a-zA-Z` in
`validator.py`'s regex `^[a-zA-Z0-9\s]*$`. -/
def isAsciiLetter (c : Char) : Bool := c.isUpper || c.isLower

/-- ASCII digit `0-9`. -/
def isAsciiDigit (c : Char) : Bool := c.isDigit

/-- `validator.validate_name`: strip, then the checks in source order —
empty, character set (letters, digits, whitespace), multi-word, length
cap 50, all-digits.  On success returns the stripped name, on failure the
error message from the source. -/
def validateName (s : Str) : Bool × Str :=
  let name := pyStrip s
  if name = [] then
    (false, str "名称不能为空")
  else if ¬ (name.all fun c => isAsciiLetter c || isAsciiDigit c || pyIsSpace c) then
    (false, str "名称只能包含字母和数字")
  else if (pySplit name).length > 1 then
    (false, str "名称只能是一个单词，不能包含空格")
  else if name.length > 50 then
    (false, str "名称长度不能超过50个字符")
  else if name.all isAsciiDigit then
    -- Python `name.isdigit()` also requires non-emptiness, which the first
    -- branch has already established on this path.
    (false, str "名称不能只包含数字")
  else
    (true, name)

/-- ASCII letter or digit: the characters an accepted candidate name may
consist of (derived fact about `validateName`, proved below). -/
def isAlnumAscii (c : Char) : Bool := isAsciiLetter c || isAsciiDigit c

/-- The normalized outcome of one external source call, as produced by
`TMDNNameChecker.search_trademark` / `WIPOChecker.search_trademark`:
the dictionary keys `status`, `brands`, `total_found`, `error_message`
that `TrademarkChecker.check_trademark` consumes. -/
structure SourceResult where
  status : String
  brands : List Str
  totalFound : Nat
  errorMessage : String
deriving DecidableEq

/-- The per-candidate result dictionary built by
`TrademarkChecker.check_trademark` (the fields the verification uses;
`status_message` and `search_params` are presentation-only strings). -/
structure CheckResult where
  queryName : Str
  status : String
  brands : List Str
  totalFound : Nat
  totalDisplayed : Nat
  hasExactMatch : Bool
  hasSimilarMatch : Bool
  exactMatches : List Str
  similarMatches : List Str
  searchSource : List String
  errorDetails : List String
  errorMessage : String
  inLocalDb : Bool
deriving DecidableEq

/-- The `result` dictionary as initialised at the top of
`check_trademark`: success status, empty collections, and the local
database always listed first in `search_source`. -/
def initResult (queryName : Str) : CheckResult :=
  { queryName := queryName
    status := "success"
    brands := []
    totalFound := 0
    totalDisplayed := 0
    hasExactMatch := false
    hasSimilarMatch := false
    exactMatches := []
    similarMatches := []
    searchSource := ["本地数据库"]
    errorDetails := []
    errorMessage := ""
    inLocalDb := false }

/-- `TrademarkChecker._check_local_database`: the stored lines are
stripped then lower-cased into a set, the query is lower-cased then
stripped, and membership is tested.  `localNames` stands for the lines of
`checked_name.txt`; a missing or unreadable file is the empty list. -/
def checkLocalDatabase (localNames : List Str) (queryName : Str) : Bool :=
  let qn := pyStrip (pyLower queryName)
  decide (qn ∈ localNames.map (fun line => pyLower (pyStrip line)))

/-- The tail of `check_trademark`: update `total_displayed`, the match
flags, and the deduplicated match lists.  The Python code deduplicates
with `list(set(...))`, whose iteration order is unspecified; the embedding
fixes first-occurrence order, and no theorem below relies on that order. -/
def finalizeResult (r : CheckResult) (exact similar : List Str) : CheckResult :=
  { r with
    totalDisplayed := r.brands.length
    hasExactMatch := decide (exact ≠ [])
    exactMatches := exact.dedup
    hasSimilarMatch := decide (similar ≠ [])
    similarMatches := similar.dedup }

/-- `TrademarkChecker.check_trademark`, with its environment made
explicit: `localNames` the local database lines, `tmdn` and `wipo` the
results the two source clients would return if called (a client raising
an exception is observationally the same as a non-`success` status, which
the code handles identically).  The second component is the trace of
external source clients actually invoked, in order. -/
def checkTrademark (localNames : List Str) (tmdn wipo : SourceResult)
    (queryName : Str) : CheckResult × List String :=
  let r0 := initResult queryName
  if checkLocalDatabase localNames queryName then
    ({ r0 with inLocalDb := true }, [])
  else if tmdn.status ≠ "success" then
    ({ r0 with
        status := "error"
        errorMessage := "TMDN查询失败: " ++ tmdn.errorMessage
        errorDetails := r0.errorDetails ++ ["TMDN查询失败: " ++ tmdn.errorMessage] },
      ["TMDN"])
  else
    let r1 := { r0 with
      brands := r0.brands ++ tmdn.brands
      totalFound := r0.totalFound + tmdn.totalFound
      searchSource := r0.searchSource ++ ["TMDN"] }
    let exact := checkExactMatch queryName tmdn.brands
    let similar := checkSimilarMatch queryName tmdn.brands
    if exact = [] ∧ similar = [] then
      if wipo.status = "success" then
        let r2 := { r1 with
          brands := r1.brands ++ wipo.brands
          totalFound := r1.totalFound + wipo.totalFound
          searchSource := r1.searchSource ++ ["WIPO"] }
        (finalizeResult r2
          (exact ++ checkExactMatch queryName wipo.brands)
          (similar ++ checkSimilarMatch queryName wipo.brands),
          ["TMDN", "WIPO"])
      else
        ({ r1 with
            status := "error"
            errorMessage := "WIPO查询失败: " ++ wipo.errorMessage
            errorDetails := r1.errorDetails ++ ["WIPO查询失败: " ++ wipo.errorMessage] },
          ["TMDN", "WIPO"])
    else
      (finalizeResult r1 exact similar, ["TMDN"])

/-- The error dictionary `process_query` (app.py) builds for a name that
fails validation: error status, the validator's message, and otherwise
empty fields (`search_source` is the empty list there). -/
def errorVerdict (name : Str) (msg : Str) : CheckResult :=
  { queryName := name
    status := "error"
    brands := []
    totalFound := 0
    totalDisplayed := 0
    hasExactMatch := false
    hasSimilarMatch := false
    exactMatches := []
    similarMatches := []
    searchSource := []
    errorDetails := []
    errorMessage := String.mk msg
    inLocalDb := false }

/-- The validation loop of `process_query`: walk the input names once,
appending an error verdict to `results` for each invalid name and the
validated name to `valid_names` otherwise.  Returns
(`results` so far, `valid_names`). -/
def runValidation : List Str → List CheckResult × List Str
  | [] => ([], [])
  | n :: rest =>
      let v := validateName n
      let (errs, valids) := runValidation rest
      if v.fst then (errs, v.snd :: valids) else (errorVerdict n v.snd :: errs, valids)

/-- The verdict list `process_query` builds for a batch: the error
verdicts of the invalid names first (appended during the validation
loop), then one checker result per valid name, appended in order.
`check` abstracts `checker.check_trademark` together with the source
responses each name would receive. -/
def processResults (check : Str → CheckResult) (names : List Str) : List CheckResult :=
  let (errs, valids) := runValidation names
  errs ++ valids.map check

/-- The module-level `current_query` dictionary in app.py. -/
structure LockState where
  isQuerying : Bool
  startTime : Nat
deriving DecidableEq

/-- `reset_query_state` in app.py. -/
def resetQueryState : LockState := { isQuerying := false, startTime := 0 }

/-- The possible returns of `process_query`: the busy rejection, the two
input-guard messages, the all-errors aggregate message, a normal result
list, or the message produced by the outer exception handler. -/
inductive PQOutcome where
  | busy
  | noNames
  | tooMany
  | allFailed
  | ok (results : List CheckResult)
  | failed (msg : String)
deriving DecidableEq

/-- What one call of `process_query` leaves behind: its return value, the
final `current_query` flag state, whether this call still holds
`query_lock` on exit, and the validated names it sent to the checker. -/
structure PQResult where
  outcome : PQOutcome
  finalState : LockState
  selfHoldsLock : Bool
  checkedNames : List Str
deriving DecidableEq

/-- The body of `process_query` after the staleness guard: non-blocking
lock acquisition, the size guards, validation plus checking, the
all-errors aggregation, and the `finally` block that resets
`current_query` and releases the lock on every path out of the `try`.
`otherHoldsLock` is true while another thread holds `query_lock`;
`raises` models an exception thrown inside the `try` body (the `finally`
still runs). -/
def processQueryBody (st : LockState) (otherHoldsLock : Bool) (_now : Nat)
    (names : List Str) (check : Str → CheckResult) (raises : Option String) :
    PQResult :=
  if otherHoldsLock then
    { outcome := .busy, finalState := st, selfHoldsLock := false, checkedNames := [] }
  else
    -- lock acquired; `current_query` is set to (true, now), and the
    -- `finally` block restores it to the reset state before returning.
    match raises with
    | some msg =>
        { outcome := .failed msg, finalState := resetQueryState
          selfHoldsLock := false, checkedNames := [] }
    | none =>
        if names = [] then
          { outcome := .noNames, finalState := resetQueryState
            selfHoldsLock := false, checkedNames := [] }
        else if names.length > 100 then
          { outcome := .tooMany, finalState := resetQueryState
            selfHoldsLock := false, checkedNames := [] }
        else
          let results := processResults check names
          if results.all (fun r => r.status == "error") then
            { outcome := .allFailed, finalState := resetQueryState
              selfHoldsLock := false, checkedNames := (runValidation names).snd }
          else
            { outcome := .ok results, finalState := resetQueryState
              selfHoldsLock := false, checkedNames := (runValidation names).snd }

/-- `process_query` (app.py): if another query is flagged as in progress
it is rejected as busy, unless the flag is older than 300 seconds, in
which case the stale state is forcibly reset and processing continues. -/
def processQuery (st : LockState) (otherHoldsLock : Bool) (now : Nat)
    (names : List Str) (check : Str → CheckResult) (raises : Option String) :
    PQResult :=
  if st.isQuerying then
    if now - st.startTime > 300 then
      processQueryBody resetQueryState otherHoldsLock now names check raises
    else
      { outcome := .busy, finalState := st, selfHoldsLock := false, checkedNames := [] }
  else
    processQueryBody st otherHoldsLock now names check raises

/-! ### Concrete source fixtures used by witnesses and counterexamples -/

def srcSuccessEmpty : SourceResult :=
  { status := "success", brands := [], totalFound := 0, errorMessage := "" }

def srcSuccessCat : SourceResult :=
  { status := "success", brands := [str "cat"], totalFound := 1, errorMessage := "" }

def srcSuccessDog : SourceResult :=
  { status := "success", brands := [str "dog"], totalFound := 1, errorMessage := "" }

def srcFail : SourceResult :=
  { status := "error", brands := [], totalFound := 0, errorMessage := "boom" }

/-- A concrete per-name check for witnesses: both sources succeed with no
results. -/
def checkDemo (n : Str) : CheckResult :=
  (checkTrademark [] srcSuccessEmpty srcSuccessEmpty n).fst

example : checkExactMatch (str "cat") [str "catch", str "the cat sat", str "CAT"]
    = [str "the cat sat", str "CAT"] := by decide

example : checkSimilarMatch (str "cat") [str "cot", str "cats", str "bat"]
    = [str "cot", str "bat"] := by decide

example : validateName (str "abc123") = (true, str "abc123") := by decide

example : (validateName (str "123")).fst = false := by decide

example : (validateName (str " cat ")).snd = str "cat" := by decide

example : (validateName (str "bad name")).fst = false := by decide

/-! ### Classifier membership lemmas -/

lemma mem_checkExactMatch (q b : Str) (marks : List Str) :
    b ∈ checkExactMatch q marks ↔
      b ∈ marks ∧ pyStrip (pyLower q) ∈ markTokens b := by
  simp [checkExactMatch, List.mem_filter]

lemma mem_checkSimilarMatch (q b : Str) (marks : List Str) :
    b ∈ checkSimilarMatch q marks ↔
      b ∈ marks ∧ ∃ w ∈ markTokens b,
        w.length = (pyStrip (pyLower q)).length ∧
        hammingDiff w (pyStrip (pyLower q)) = 1 := by
  simp [checkSimilarMatch, List.mem_filter, List.any_eq_true, Bool.and_eq_true,
    beq_iff_eq]

/-- C1: the exact-match classifier returns a mark iff the lower-cased,
trimmed candidate equals one of the mark's whitespace-separated,
lower-cased tokens exactly; for candidate "cat" and
marks ["catch", "the cat sat", "CAT"] it returns exactly
["the cat sat", "CAT"] and never includes "catch". -/
theorem exact_match_word_boundary :
    (∀ (q b : Str) (marks : List Str),
      b ∈ checkExactMatch q marks ↔
        b ∈ marks ∧ pyStrip (pyLower q) ∈ markTokens b)
    ∧ checkExactMatch (str "cat") [str "catch", str "the cat sat", str "CAT"]
        = [str "the cat sat", str "CAT"] :=
  ⟨fun q b marks => mem_checkExactMatch q b marks, by decide⟩

/-- C2: the similar-match classifier returns a mark iff some
whitespace-separated token of the mark has the same length as the
candidate and differs from the lower-cased candidate in exactly one
position; for candidate "cat" and marks ["cot", "cats", "bat"] it
returns exactly ["cot", "bat"] ("cats" is never compared). -/
theorem similar_match_hamming :
    (∀ (q b : Str) (marks : List Str),
      b ∈ checkSimilarMatch q marks ↔
        b ∈ marks ∧ ∃ w ∈ markTokens b,
          w.length = (pyStrip (pyLower q)).length ∧
          hammingDiff w (pyStrip (pyLower q)) = 1)
    ∧ checkSimilarMatch (str "cat") [str "cot", str "cats", str "bat"]
        = [str "cot", str "bat"] :=
  ⟨fun q b marks => mem_checkSimilarMatch q b marks, by decide⟩

/-- C8 counterexample: with candidate "cat" and the mark "cat" appearing
twice in the input, the exact-match classifier lists the qualifying mark
twice, so its output is not duplicate-free. -/
theorem classifier_duplicate_counterexample :
    checkExactMatch (str "cat") [str "cat", str "cat"] = [str "cat", str "cat"]
    ∧ ¬ (checkExactMatch (str "cat") [str "cat", str "cat"]).Nodup := by
  constructor
  · decide
  · decide

/-- C8 amended: each classifier's output is an order-preserving sublist of
the input marks (one entry per qualifying occurrence, so a mark with two
qualifying tokens still appears once per occurrence); when the input has
no duplicates neither does the output; and the verdict's final
exact/similar match fields are always deduplicated. -/
theorem classifier_sublist_dedup :
    ∀ (q : Str) (marks : List Str),
      (checkExactMatch q marks).Sublist marks
      ∧ (checkSimilarMatch q marks).Sublist marks
      ∧ (marks.Nodup →
          (checkExactMatch q marks).Nodup ∧ (checkSimilarMatch q marks).Nodup)
      ∧ (∀ (localNames : List Str) (tmdn wipo : SourceResult),
          (checkTrademark localNames tmdn wipo q).fst.exactMatches.Nodup
          ∧ (checkTrademark localNames tmdn wipo q).fst.similarMatches.Nodup) := by
  intro q marks
  refine ⟨List.filter_sublist _, List.filter_sublist _, fun h => ⟨?_, ?_⟩, ?_⟩
  · exact (List.filter_sublist _).nodup h
  · exact (List.filter_sublist _).nodup h
  · intro localNames tmdn wipo
    unfold checkTrademark
    dsimp only
    split
    · simp [initResult]
    · split
      · simp [initResult]
      · split
        · split
          · simp [finalizeResult, List.nodup_dedup]
          · simp [initResult]
        · simp [finalizeResult, List.nodup_dedup]

/-- Witness for the amended C8 at a concrete input: with a duplicate-free
mark list the exact-match classifier output is a duplicate-free sublist. -/
theorem classifier_sublist_dedup_witness :
    (checkExactMatch (str "cat") [str "cat", str "catch"]).Sublist
        [str "cat", str "catch"]
    ∧ (checkExactMatch (str "cat") [str "cat", str "catch"]).Nodup :=
  have h := classifier_sublist_dedup (str "cat") [str "cat", str "catch"]
  ⟨h.1, (h.2.2.1 (by decide)).1⟩

/-- C5: a candidate found in the local knowledge store yields a
local-match verdict (the `in_local_db` flag, which is what the UI layer
treats as the local-match status) with no external source client
invoked. -/
theorem local_hit_skips_sources :
    ∀ (localNames : List Str) (tmdn wipo : SourceResult) (q : Str),
      checkLocalDatabase localNames q = true →
      (checkTrademark localNames tmdn wipo q).snd = []
      ∧ (checkTrademark localNames tmdn wipo q).fst.inLocalDb = true
      ∧ (checkTrademark localNames tmdn wipo q).fst.status = "success" := by
  intro localNames tmdn wipo q h
  simp [checkTrademark, h, initResult]

/-- Witness for C5 at a concrete input: "cat" is in the local store, so
no source is called and the verdict is a local match. -/
theorem local_hit_skips_sources_witness :
    (checkTrademark [str "cat"] srcSuccessEmpty srcSuccessEmpty (str "cat")).snd = []
    ∧ (checkTrademark [str "cat"] srcSuccessEmpty srcSuccessEmpty (str "cat")).fst.inLocalDb = true
    ∧ (checkTrademark [str "cat"] srcSuccessEmpty srcSuccessEmpty (str "cat")).fst.status = "success" :=
  local_hit_skips_sources [str "cat"] srcSuccessEmpty srcSuccessEmpty (str "cat") (by decide)

/-- C3: when the first external source (TMDN) succeeds and its results
contain an exact match, the second source (WIPO) is never called, and the
verdict's source list names exactly the sources consulted: the local
database and TMDN, without WIPO. -/
theorem exact_short_circuit :
    ∀ (localNames : List Str) (tmdn wipo : SourceResult) (q : Str),
      checkLocalDatabase localNames q = false →
      tmdn.status = "success" →
      checkExactMatch q tmdn.brands ≠ [] →
      (checkTrademark localNames tmdn wipo q).snd = ["TMDN"]
      ∧ (checkTrademark localNames tmdn wipo q).fst.searchSource = ["本地数据库", "TMDN"]
      ∧ "WIPO" ∉ (checkTrademark localNames tmdn wipo q).fst.searchSource := by
  intro localNames tmdn wipo q h1 h2 h3
  simp [checkTrademark, h1, h2, h3, finalizeResult, initResult]

/-- Witness for C3 at a concrete input: TMDN returns the exact match
"cat", and WIPO (configured to fail if it were called) is skipped. -/
theorem exact_short_circuit_witness :
    (checkTrademark [] srcSuccessCat srcFail (str "cat")).snd = ["TMDN"]
    ∧ (checkTrademark [] srcSuccessCat srcFail (str "cat")).fst.searchSource
        = ["本地数据库", "TMDN"]
    ∧ "WIPO" ∉ (checkTrademark [] srcSuccessCat srcFail (str "cat")).fst.searchSource :=
  exact_short_circuit [] srcSuccessCat srcFail (str "cat") (by decide) rfl (by decide)

/-- C4 counterexample: TMDN succeeds with "dog", WIPO fails; the verdict
keeps TMDN's marks and has error status, but `search_source` is
["本地数据库", "TMDN"] — the failed WIPO attempt (present in the call
trace) is *not* listed, contradicting `sources_queried == [A, B]`. -/
theorem partial_failure_counterexample :
    (checkTrademark [] srcSuccessDog srcFail (str "cat")).snd = ["TMDN", "WIPO"]
    ∧ (checkTrademark [] srcSuccessDog srcFail (str "cat")).fst.status = "error"
    ∧ (checkTrademark [] srcSuccessDog srcFail (str "cat")).fst.brands = [str "dog"]
    ∧ (checkTrademark [] srcSuccessDog srcFail (str "cat")).fst.searchSource
        = ["本地数据库", "TMDN"]
    ∧ "WIPO" ∉ (checkTrademark [] srcSuccessDog srcFail (str "cat")).fst.searchSource := by
  decide

/-- C4 amended: when TMDN succeeds without any match and WIPO ultimately
reports failure, the orchestrator (which itself performs no retry) returns
an Error verdict that keeps TMDN's marks and total, records the failure in
`error_details`, and lists only the local database and TMDN — not the
attempted WIPO — in `search_source`. -/
theorem partial_failure_keeps_partial_results :
    ∀ (localNames : List Str) (tmdn wipo : SourceResult) (q : Str),
      checkLocalDatabase localNames q = false →
      tmdn.status = "success" →
      checkExactMatch q tmdn.brands = [] →
      checkSimilarMatch q tmdn.brands = [] →
      wipo.status ≠ "success" →
      (checkTrademark localNames tmdn wipo q).snd = ["TMDN", "WIPO"]
      ∧ (checkTrademark localNames tmdn wipo q).fst.status = "error"
      ∧ (checkTrademark localNames tmdn wipo q).fst.brands = tmdn.brands
      ∧ (checkTrademark localNames tmdn wipo q).fst.totalFound = tmdn.totalFound
      ∧ (checkTrademark localNames tmdn wipo q).fst.searchSource = ["本地数据库", "TMDN"]
      ∧ (checkTrademark localNames tmdn wipo q).fst.errorDetails ≠ [] := by
  intro localNames tmdn wipo q h1 h2 h3 h4 h5
  simp [checkTrademark, h1, h2, h3, h4, h5, initResult]

/-- Witness for the amended C4 at a concrete input. -/
theorem partial_failure_keeps_partial_results_witness :
    (checkTrademark [] srcSuccessDog srcFail (str "cat")).fst.status = "error"
    ∧ (checkTrademark [] srcSuccessDog srcFail (str "cat")).fst.brands = srcSuccessDog.brands
    ∧ (checkTrademark [] srcSuccessDog srcFail (str "cat")).fst.searchSource
        = ["本地数据库", "TMDN"] :=
  have h := partial_failure_keeps_partial_results [] srcSuccessDog srcFail (str "cat")
    (by decide) rfl (by decide) (by decide) (by decide)
  ⟨h.2.1, h.2.2.1, h.2.2.2.2.1⟩

/-! ### Facts about whitespace splitting and stripping -/

lemma space_not_alnum {c : Char} (h : pyIsSpace c = true) : isAlnumAscii c = false := by
  simp only [pyIsSpace, Bool.or_eq_true, decide_eq_true_eq] at h
  rcases h with ((((h | h) | h) | h) | h) | h <;> subst h <;> decide

lemma alnum_not_space {c : Char} (h : isAlnumAscii c = true) : pyIsSpace c = false := by
  by_contra hs
  rw [Bool.not_eq_false] at hs
  rw [space_not_alnum hs] at h
  exact Bool.false_ne_true h

lemma splitAux_no_space :
    ∀ (s acc : Str), (∀ c ∈ s, pyIsSpace c = false) →
      splitAux s acc = if acc.reverse ++ s = [] then [] else [acc.reverse ++ s] := by
  intro s
  induction s with
  | nil =>
      intro acc _
      by_cases h : acc = []
      · simp [splitAux, h]
      · simp [splitAux, h]
  | cons c rest ih =>
      intro acc hall
      have hc : pyIsSpace c = false := hall c (List.mem_cons_self c rest)
      have hrest : ∀ d ∈ rest, pyIsSpace d = false :=
        fun d hd => hall d (List.mem_cons_of_mem c hd)
      have hstep : splitAux (c :: rest) acc = splitAux rest (c :: acc) := by
        simp [splitAux, hc]
      rw [hstep, ih (c :: acc) hrest]
      have he : (c :: acc).reverse ++ rest = acc.reverse ++ c :: rest := by
        simp
      rw [he]

lemma pySplit_no_space (t : Str) (hne : t ≠ []) (h : ∀ c ∈ t, pyIsSpace c = false) :
    pySplit t = [t] := by
  unfold pySplit
  rw [splitAux_no_space t [] h]
  simp [hne]

lemma splitAux_pos_of_acc :
    ∀ (s acc : Str), acc ≠ [] → 1 ≤ (splitAux s acc).length := by
  intro s
  induction s with
  | nil => intro acc h; simp [splitAux, h]
  | cons c rest ih =>
      intro acc h
      by_cases hc : pyIsSpace c = true
      · simp [splitAux, hc, h]
      · have hc2 : pyIsSpace c = false := by simpa using hc
        have hstep : splitAux (c :: rest) acc = splitAux rest (c :: acc) := by
          simp [splitAux, hc2]
        rw [hstep]
        exact ih (c :: acc) (by simp)

lemma splitAux_pos_of_mem :
    ∀ (s acc : Str), (∃ c ∈ s, pyIsSpace c = false) → 1 ≤ (splitAux s acc).length := by
  intro s
  induction s with
  | nil =>
      intro acc h
      obtain ⟨c, hc, _⟩ := h
      exact absurd hc (List.not_mem_nil c)
  | cons c rest ih =>
      intro acc h
      by_cases hc : pyIsSpace c = true
      · obtain ⟨d, hd, hdf⟩ := h
        have hdrest : d ∈ rest := by
          rcases List.mem_cons.mp hd with rfl | h2
          · rw [hc] at hdf; exact absurd hdf (by simp)
          · exact h2
        by_cases hacc : acc = []
        · have hstep : splitAux (c :: rest) acc = splitAux rest [] := by
            simp [splitAux, hc, hacc]
          rw [hstep]
          exact ih [] ⟨d, hdrest, hdf⟩
        · have hstep : splitAux (c :: rest) acc = acc.reverse :: splitAux rest [] := by
            simp [splitAux, hc, hacc]
          rw [hstep]
          simp
      · have hc2 : pyIsSpace c = false := by simpa using hc
        have hstep : splitAux (c :: rest) acc = splitAux rest (c :: acc) := by
          simp [splitAux, hc2]
        rw [hstep]
        exact splitAux_pos_of_acc rest (c :: acc) (by simp)

lemma splitAux_two_words :
    ∀ (x : Str) (c : Char) (y acc : Str),
      pyIsSpace c = true →
      ((∃ d ∈ x, pyIsSpace d = false) ∨ acc ≠ []) →
      (∃ e ∈ y, pyIsSpace e = false) →
      2 ≤ (splitAux (x ++ c :: y) acc).length := by
  intro x
  induction x with
  | nil =>
      intro c y acc hc hx hy
      have hacc : acc ≠ [] := by
        rcases hx with ⟨d, hd, _⟩ | h
        · exact absurd hd (List.not_mem_nil d)
        · exact h
      have hstep : splitAux ([] ++ c :: y) acc = acc.reverse :: splitAux y [] := by
        simp [splitAux, hc, hacc]
      rw [hstep]
      have h1 := splitAux_pos_of_mem y [] hy
      simp only [List.length_cons]
      omega
  | cons a x2 ih =>
      intro c y acc hc hx hy
      by_cases ha : pyIsSpace a = true
      · by_cases hacc : acc = []
        · have hstep : splitAux ((a :: x2) ++ c :: y) acc = splitAux (x2 ++ c :: y) [] := by
            simp [splitAux, ha, hacc]
          rw [hstep]
          refine ih c y [] hc (Or.inl ?_) hy
          rcases hx with ⟨d, hd, hdf⟩ | h
          · rcases List.mem_cons.mp hd with rfl | h2
            · rw [ha] at hdf; exact absurd hdf (by simp)
            · exact ⟨d, h2, hdf⟩
          · exact absurd hacc h
        · have hstep : splitAux ((a :: x2) ++ c :: y) acc
              = acc.reverse :: splitAux (x2 ++ c :: y) [] := by
            simp [splitAux, ha, hacc]
          rw [hstep]
          obtain ⟨e, he, hef⟩ := hy
          have h1 := splitAux_pos_of_mem (x2 ++ c :: y) []
            ⟨e, by simp [he], hef⟩
          simp only [List.length_cons]
          omega
      · have ha2 : pyIsSpace a = false := by simpa using ha
        have hstep : splitAux ((a :: x2) ++ c :: y) acc
            = splitAux (x2 ++ c :: y) (a :: acc) := by
          simp [splitAux, ha2]
        rw [hstep]
        exact ih c y (a :: acc) hc (Or.inr (by simp)) hy

lemma dropWhile_head_false {α : Type} (p : α → Bool) :
    ∀ (l : List α) {a : α}, (l.dropWhile p).head? = some a → p a = false := by
  intro l
  induction l with
  | nil => intro a h; simp [List.dropWhile] at h
  | cons x xs ih =>
      intro a h
      rw [List.dropWhile_cons] at h
      by_cases hp : p x = true
      · rw [if_pos hp] at h
        exact ih h
      · rw [if_neg hp] at h
        simp only [List.head?_cons, Option.some.injEq] at h
        subst h
        simpa using hp

lemma dropWhile_getLast_of_ne_nil {α : Type} (p : α → Bool) :
    ∀ (l : List α), l.dropWhile p ≠ [] → (l.dropWhile p).getLast? = l.getLast? := by
  intro l
  induction l with
  | nil => intro h; simp [List.dropWhile] at h
  | cons x xs ih =>
      intro h
      rw [List.dropWhile_cons] at h ⊢
      by_cases hp : p x = true
      · rw [if_pos hp] at h ⊢
        rw [ih h]
        cases xs with
        | nil => simp [List.dropWhile] at h
        | cons b bs => exact (List.getLast?_cons_cons).symm
      · rw [if_neg hp]

lemma pyStrip_getLast_not_space (s : Str) {a : Char}
    (h : (pyStrip s).getLast? = some a) : pyIsSpace a = false := by
  unfold pyStrip at h
  rw [List.getLast?_reverse] at h
  exact dropWhile_head_false pyIsSpace _ h

lemma pyStrip_head_not_space (s : Str) {a : Char}
    (h : (pyStrip s).head? = some a) : pyIsSpace a = false := by
  unfold pyStrip at h
  rw [List.head?_reverse] at h
  have hne : (s.dropWhile pyIsSpace).reverse.dropWhile pyIsSpace ≠ [] := by
    intro hnil
    rw [hnil] at h
    simp at h
  rw [dropWhile_getLast_of_ne_nil pyIsSpace _ hne, List.getLast?_reverse] at h
  exact dropWhile_head_false pyIsSpace _ h

lemma pySplit_two_of_space (s : Str)
    (hmem : ∃ c ∈ pyStrip s, pyIsSpace c = true) :
    2 ≤ (pySplit (pyStrip s)).length := by
  obtain ⟨c, hc, hcs⟩ := hmem
  obtain ⟨x, y, hxy⟩ := List.append_of_mem hc
  cases x with
  | nil =>
      exfalso
      have hh : (pyStrip s).head? = some c := by rw [hxy]; rfl
      have := pyStrip_head_not_space s hh
      rw [this] at hcs
      exact Bool.false_ne_true hcs
  | cons a x2 =>
      have haf : pyIsSpace a = false := by
        apply pyStrip_head_not_space s
        rw [hxy]
        rfl
      cases y with
      | nil =>
          exfalso
          have hg : (pyStrip s).getLast? = some c := by
            rw [hxy]
            exact List.getLast?_concat _
          have := pyStrip_getLast_not_space s hg
          rw [this] at hcs
          exact Bool.false_ne_true hcs
      | cons e y2 =>
          have hy2 : (e :: y2 : Str) ≠ [] := by simp
          have hlf : pyIsSpace ((e :: y2).getLast hy2) = false := by
            apply pyStrip_getLast_not_space s
            rw [hxy, List.getLast?_append_of_ne_nil _ (by simp),
              List.getLast?_cons_cons, List.getLast?_eq_getLast (e :: y2) hy2]
          rw [hxy]
          unfold pySplit
          exact splitAux_two_words (a :: x2) c (e :: y2) [] hcs
            (Or.inl ⟨a, List.mem_cons_self a x2, haf⟩)
            ⟨(e :: y2).getLast hy2, List.getLast_mem hy2, hlf⟩

/-- An accepted name has every character alphanumeric: the regex check
permits letters, digits and whitespace, and the single-word check then
excludes whitespace because the name is already stripped. -/
lemma validateName_accept_iff (s : Str) :
    ((validateName s).fst = true ↔
      pyStrip s ≠ [] ∧ (pyStrip s).all isAlnumAscii = true ∧
      (pyStrip s).length ≤ 50 ∧ (pyStrip s).all isAsciiDigit = false)
    ∧ ((validateName s).fst = true → (validateName s).snd = pyStrip s) := by
  by_cases h0 : pyStrip s = []
  · simp [validateName, h0]
  · by_cases h1 : (pyStrip s).all
        (fun c => isAsciiLetter c || isAsciiDigit c || pyIsSpace c) = true
    · by_cases h2 : (pySplit (pyStrip s)).length > 1
      · have hra : ¬ ((pyStrip s).all isAlnumAscii = true) := by
          intro hA
          have hnos : ∀ c ∈ pyStrip s, pyIsSpace c = false := by
            intro c hcm
            exact alnum_not_space ((List.all_eq_true.mp hA) c hcm)
          rw [pySplit_no_space (pyStrip s) h0 hnos] at h2
          simp at h2
        simp [validateName, h0, h1, h2, hra]
      · have hAl : (pyStrip s).all isAlnumAscii = true := by
          rw [List.all_eq_true]
          intro c hcm
          by_contra hcn
          have hcn2 : isAlnumAscii c = false := by simpa using hcn
          have hcs : pyIsSpace c = true := by
            have hreg := (List.all_eq_true.mp h1) c hcm
            simp only [isAlnumAscii, Bool.or_eq_false_iff] at hcn2
            simp only [hcn2.1, hcn2.2, Bool.false_or] at hreg
            exact hreg
          have h2w := pySplit_two_of_space s ⟨c, hcm, hcs⟩
          omega
        by_cases h3 : (pyStrip s).length > 50
        · simp [validateName, h0, h1, h2, h3]
        · by_cases h4 : (pyStrip s).all isAsciiDigit = true
          · simp [validateName, h0, h1, h2, h3, h4]
          · have h4f : (pyStrip s).all isAsciiDigit = false := by
              simpa using h4
            simp [validateName, h0, h1, h2, h3, h4f, hAl]
            omega
    · have hra : ¬ ((pyStrip s).all isAlnumAscii = true) := by
        intro hA
        apply h1
        rw [List.all_eq_true] at hA ⊢
        intro c hcm
        have := hA c hcm
        simp only [isAlnumAscii, Bool.or_eq_true] at this ⊢
        exact Or.inl this
      simp [validateName, h0, h1, hra]

/-- C7 counterexample: the trimmed name "abc1" contains a character that
is not an ASCII letter, so the claimed rule (d) would reject it, yet the
validator accepts it and returns it unchanged. -/
theorem validator_letters_only_counterexample :
    validateName (str "abc1") = (true, str "abc1")
    ∧ ¬ ((str "abc1").all isAsciiLetter = true) := by
  constructor
  · decide
  · decide

/-- C7 amended: validation trims the input and accepts iff the trimmed
name is non-empty, consists only of ASCII letters and digits (whitespace
inside is impossible for an accepted name), has length at most 50, and is
not made of digits alone; on acceptance the trimmed name is returned.
The function is pure, so determinism is inherent in the embedding. -/
theorem validate_name_characterization :
    ∀ s : Str,
      ((validateName s).fst = true ↔
        pyStrip s ≠ [] ∧ (pyStrip s).all isAlnumAscii = true ∧
        (pyStrip s).length ≤ 50 ∧ (pyStrip s).all isAsciiDigit = false)
      ∧ ((validateName s).fst = true → (validateName s).snd = pyStrip s) :=
  fun s => validateName_accept_iff s

/-- Witness for the amended C7 at a concrete input: " cat " is accepted
and the stripped name is returned. -/
theorem validate_name_characterization_witness :
    (validateName (str " cat ")).snd = pyStrip (str " cat ")
    ∧ (validateName (str " cat ")).fst = true :=
  ⟨(validate_name_characterization (str " cat ")).2 (by decide), by decide⟩

/-- C10: the validator accepts a single-token letters-and-digits name
such as "abc123", while every input whose trimmed form is non-empty and
consists only of ASCII digits is rejected. -/
theorem digits_allowed_pure_digits_rejected :
    (validateName (str "abc123")).fst = true
    ∧ ∀ s : Str, pyStrip s ≠ [] → (pyStrip s).all isAsciiDigit = true →
        (validateName s).fst = false := by
  constructor
  · decide
  · intro s _ hdig
    by_contra hacc
    have hacc2 : (validateName s).fst = true := by simpa using hacc
    have h := (validateName_accept_iff s).1.mp hacc2
    rw [h.2.2.2] at hdig
    exact Bool.false_ne_true hdig

/-- Witness for C10 at a concrete input: "123" is rejected. -/
theorem digits_allowed_pure_digits_rejected_witness :
    (validateName (str "123")).fst = false :=
  digits_allowed_pure_digits_rejected.2 (str "123") (by decide) (by decide)

/-! ### Batch processing -/

lemma runValidation_length :
    ∀ names : List Str,
      (runValidation names).fst.length + (runValidation names).snd.length
        = names.length := by
  intro names
  induction names with
  | nil => simp [runValidation]
  | cons n rest ih =>
      by_cases h : (validateName n).fst = true
      · simp [runValidation, h]
        omega
      · simp [runValidation, h]
        omega

lemma runValidation_all_valid :
    ∀ names : List Str, (∀ n ∈ names, (validateName n).fst = true) →
      runValidation names = ([], names.map (fun n => (validateName n).snd)) := by
  intro names
  induction names with
  | nil => intro _; simp [runValidation]
  | cons n rest ih =>
      intro h
      have hn : (validateName n).fst = true := h n (List.mem_cons_self n rest)
      have hrest := ih (fun m hm => h m (List.mem_cons_of_mem n hm))
      simp [runValidation, hn, hrest]

/-- C6 counterexample: for input ["good", "bad name"] the batch returns
the error verdict for the invalid "bad name" first, so the verdicts are
not in input order and the invalid name is not at its input position. -/
theorem batch_order_counterexample :
    (processResults checkDemo [str "good", str "bad name"]).map CheckResult.queryName
        = [str "bad name", str "good"]
    ∧ (processResults checkDemo [str "good", str "bad name"]).map CheckResult.queryName
        ≠ [str "good", str "bad name"] := by
  constructor
  · decide
  · decide

/-- C6 amended: the batch returns exactly one verdict per input name
(per-name check outcomes never abort the rest, since each check returns a
verdict), but error verdicts for names failing validation are emitted
first, followed by the checker verdicts of the valid names; only when
every name validates do the verdicts follow the input order exactly. -/
theorem batch_one_verdict_per_name :
    ∀ (check : Str → CheckResult) (names : List Str),
      (processResults check names).length = names.length
      ∧ ((∀ n ∈ names, (validateName n).fst = true) →
          processResults check names
            = names.map (fun n => check (validateName n).snd)) := by
  intro check names
  constructor
  · simp only [processResults, List.length_append, List.length_map]
    exact runValidation_length names
  · intro h
    simp [processResults, runValidation_all_valid names h]

/-- Witness for the amended C6 at a concrete input: a batch of two valid
names yields their two checker verdicts in input order. -/
theorem batch_one_verdict_per_name_witness :
    (processResults checkDemo [str "cat", str "dog"]).length = 2
    ∧ processResults checkDemo [str "cat", str "dog"]
        = [checkDemo (str "cat"), checkDemo (str "dog")] := by
  have h := batch_one_verdict_per_name checkDemo [str "cat", str "dog"]
  refine ⟨h.1, ?_⟩
  rw [h.2 (by decide)]
  rfl

/-! ### Single-flight lock discipline -/

lemma processQueryBody_no_lock (st : LockState) (other : Bool) (now : Nat)
    (names : List Str) (check : Str → CheckResult) (raises : Option String) :
    (processQueryBody st other now names check raises).selfHoldsLock = false := by
  unfold processQueryBody
  split
  · rfl
  · cases raises with
    | some msg => rfl
    | none =>
        by_cases h1 : names = []
        · simp [h1]
        · by_cases h2 : names.length > 100
          · simp [h1, h2]
          · by_cases h3 : (processResults check names).all (fun r => r.status == "error") = true
            · simp [h1, h2, h3]
            · simp [h1, h2, h3]

lemma processQueryBody_busy (st : LockState) (now : Nat)
    (names : List Str) (check : Str → CheckResult) (raises : Option String) :
    processQueryBody st true now names check raises
      = { outcome := .busy, finalState := st, selfHoldsLock := false,
          checkedNames := [] } := by
  unfold processQueryBody
  rfl

/-- C9: while a batch is executing (the `query_lock` is held by its
thread), a second request returns busy at once and sends no names to the
checker; a fresh `is_querying` flag alone also forces the busy return
and leaves the state untouched; the lock is released on every exit path,
normal, guarded or exceptional; and a flag older than 300 seconds is
forcibly reset, after which the call behaves as if no query were
flagged. -/
theorem single_flight_lock :
    ∀ (st : LockState) (other : Bool) (now : Nat) (names : List Str)
      (check : Str → CheckResult) (raises : Option String),
      (other = true →
        (processQuery st other now names check raises).outcome = PQOutcome.busy
        ∧ (processQuery st other now names check raises).checkedNames = [])
      ∧ (st.isQuerying = true → now - st.startTime ≤ 300 →
        (processQuery st other now names check raises).outcome = PQOutcome.busy
        ∧ (processQuery st other now names check raises).checkedNames = []
        ∧ (processQuery st other now names check raises).finalState = st)
      ∧ (processQuery st other now names check raises).selfHoldsLock = false
      ∧ (st.isQuerying = true → now - st.startTime > 300 →
        processQuery st other now names check raises
          = processQuery resetQueryState other now names check raises) := by
  intro st other now names check raises
  refine ⟨?_, ?_, ?_, ?_⟩
  · intro hother
    subst hother
    unfold processQuery
    by_cases h1 : st.isQuerying = true
    · by_cases h2 : now - st.startTime > 300
      · simp [h1, h2, processQueryBody_busy]
      · simp [h1, h2]
    · simp [h1, processQueryBody_busy]
  · intro h1 h2
    have h3 : ¬ (now - st.startTime > 300) := by omega
    simp [processQuery, h1, h3]
  · unfold processQuery
    by_cases h1 : st.isQuerying = true
    · by_cases h2 : now - st.startTime > 300
      · simp [h1, h2, processQueryBody_no_lock]
      · simp [h1, h2]
    · simp [h1, processQueryBody_no_lock]
  · intro h1 h2
    simp [processQuery, h1, h2, resetQueryState]

/-- Witness for C9: concrete second requests are rejected busy both while
the lock is held and while a fresh flag is set, and a stale 400-second-old
flag is forcibly reset so the call proceeds as from the reset state. -/
theorem single_flight_lock_witness :
    (processQuery ⟨true, 0⟩ false 100 [str "cat"] checkDemo none).outcome = PQOutcome.busy
    ∧ (processQuery ⟨true, 0⟩ false 100 [str "cat"] checkDemo none).checkedNames = []
    ∧ (processQuery ⟨false, 0⟩ true 100 [str "cat"] checkDemo none).outcome = PQOutcome.busy
    ∧ (processQuery ⟨true, 0⟩ false 400 [str "cat"] checkDemo none
        = processQuery resetQueryState false 400 [str "cat"] checkDemo none) :=
  have h1 := single_flight_lock ⟨true, 0⟩ false 100 [str "cat"] checkDemo none
  have h2 := single_flight_lock ⟨false, 0⟩ true 100 [str "cat"] checkDemo none
  have h3 := single_flight_lock ⟨true, 0⟩ false 400 [str "cat"] checkDemo none
  ⟨(h1.2.1 rfl (by decide)).1, (h1.2.1 rfl (by decide)).2.1,
    (h2.1 rfl).1, h3.2.2.2 rfl (by decide)⟩


